import Mathlib

/-!
Shallow embedding of the `crypto-utils` TypeScript library (EVM permit /
Permit2 signing helpers and the Solana delegate signing helpers), together
with theorems checking the natural-language specification against the code.

Conventions of the embedding:
* JavaScript numbers that can be `NaN` are modelled as `Option Nat`
  (`none` = `NaN`); all values actually produced by the library on the
  inputs exercised here are non-negative integers below `2^53`, where JS
  number arithmetic is exact, so `Nat` is a faithful carrier.
* JavaScript `bigint` is modelled as `Nat` (the library never produces a
  negative bigint: every `BigInt` call is on a `0x…` hex or decimal string).
* A `throw` (and a rejected promise) is modelled as `Except.error`; `async`
  functions return `Except String _` and `await` is monadic bind.
* `Date.now()` is passed in explicitly as a `nowMs : Nat` parameter.
* An EIP-1193 provider is a function from the RPC requests this library
  issues to `Except String RpcResult`; the TypeScript `as string` /
  `as string[]` casts are modelled by `asStr` / `asStrList`, assuming the
  provider answers with a value of the declared JSON-RPC result type.
-/

namespace CryptoUtils

set_option maxRecDepth 16384

/-! ## Models of the JavaScript string primitives used by the library -/

/-- Value of a hexadecimal digit character, `none` for a non-digit. -/
def hexDigitVal? (c : Char) : Option Nat :=
  if '0' ≤ c ∧ c ≤ '9' then some (c.toNat - 48)
  else if 'a' ≤ c ∧ c ≤ 'f' then some (c.toNat - 97 + 10)
  else if 'A' ≤ c ∧ c ≤ 'F' then some (c.toNat - 65 + 10)
  else none

/-- Value of a decimal digit character, `none` for a non-digit. -/
def decDigitVal? (c : Char) : Option Nat :=
  if '0' ≤ c ∧ c ≤ '9' then some (c.toNat - 48) else none

/-- Horner fold of hex digit characters (digits already validated). -/
def hexFold (cs : List Char) : Nat :=
  cs.foldl (fun a c => a * 16 + ((hexDigitVal? c).getD 0)) 0

/-- Horner fold of decimal digit characters (digits already validated). -/
def decFold (cs : List Char) : Nat :=
  cs.foldl (fun a c => a * 10 + ((decDigitVal? c).getD 0)) 0

/-- Model of JavaScript `s.slice(a, b)` for non-negative indices: clamps
both ends to the string length and yields `""` when `a ≥ b`. -/
def jsSlice (s : String) (a b : Nat) : String :=
  String.mk ((s.data.drop a).take (b - a))

/-- Model of JavaScript `s.slice(a)` (to the end of the string). -/
def jsSliceFrom (s : String) (a : Nat) : String :=
  String.mk (s.data.drop a)

/-- Model of JavaScript `parseInt(s, 16)`: skip an optional `0x`/`0X`
prefix, read the longest run of hex digits, `NaN` (= `none`) if that run
is empty.  (The leading-whitespace/sign handling of `parseInt` is not
used by the library and is not modelled.) -/
def parseIntHex (s : String) : Option Nat :=
  let cs := s.data
  let cs := if cs.take 2 = ['0', 'x'] ∨ cs.take 2 = ['0', 'X'] then cs.drop 2 else cs
  let ds := cs.takeWhile fun c => (hexDigitVal? c).isSome
  if ds = [] then none else some (hexFold ds)

/-- Model of JavaScript `BigInt(s)` restricted to the forms the library
produces: a `0x`/`0X` hex literal (every remaining character must be a
hex digit, and at least one must be present, else a `SyntaxError` is
thrown), or a plain decimal literal (`""` evaluates to `0`, as in JS). -/
def bigIntJS (s : String) : Except String Nat :=
  if s.data.take 2 = ['0', 'x'] ∨ s.data.take 2 = ['0', 'X'] then
    if s.data.drop 2 ≠ [] ∧ (s.data.drop 2).all (fun c => (hexDigitVal? c).isSome) then
      .ok (hexFold (s.data.drop 2))
    else .error "SyntaxError: cannot convert string to a BigInt"
  else
    if s.data.all (fun c => (decDigitVal? c).isSome) then .ok (decFold s.data)
    else .error "SyntaxError: cannot convert string to a BigInt"

/-- Model of JavaScript `String.fromCharCode(n)` for the code points this
library produces (`n ≤ 255`, or `NaN` from a failed `parseInt`, which
`fromCharCode` coerces to code point `0`). -/
def fromCharCode (n? : Option Nat) : Char :=
  Char.ofNat ((n?.getD 0) % 65536)

/-- Character-pair loop shared by `hexToString` and the inline name/version
decoders: every two hex characters become one character (a trailing odd
character is parsed on its own, as the slice-based JS loop does). -/
def hexPairsToChars : List Char → List Char
  | [] => []
  | [c] => [fromCharCode (parseIntHex (String.mk [c]))]
  | c1 :: c2 :: rest =>
      fromCharCode (parseIntHex (String.mk [c1, c2])) :: hexPairsToChars rest

/-- Model of the library's `hexToString` helper (and of the identical
inline loop in `getTokenName`): decode a hex string byte-for-byte via
`String.fromCharCode(parseInt(hex.slice(i, i+2), 16))`. -/
def hexToString (hex : String) : String :=
  String.mk (hexPairsToChars hex.data)

/-- Model of JavaScript `str.replace('0x', '')`: remove the first
occurrence (only) of the substring `0x`. -/
def stripFirst0x : List Char → List Char
  | '0' :: 'x' :: rest => rest
  | c :: rest => c :: stripFirst0x rest
  | [] => []

/-- Model of `s.toLowerCase()` on the ASCII strings (addresses) the
library lowercases. -/
def toLowerJs (s : String) : String :=
  String.mk (s.data.map Char.toLower)

/-- Model of `s.padStart(n, c)`. -/
def padStart (s : String) (n : Nat) (c : Char) : String :=
  if n ≤ s.length then s else String.mk (List.replicate (n - s.length) c ++ s.data)

/-! ## RPC provider model -/

/-- RPC requests issued by the library. `eth_call` requests carry the
`to` address and call data of their single transaction parameter;
`eth_signTypedData_v4` carries its `[address, payload]` parameters. -/
inductive RpcCall
  | ethCall (toAddr : String) (data : String)
  | ethChainId
  | ethAccounts
  | ethRequestAccounts
  | ethSignTypedDataV4 (addr : String) (payload : String)
deriving DecidableEq

/-- RPC results: the JSON-RPC result types this library casts to. -/
inductive RpcResult
  | str (s : String)
  | strList (l : List String)
deriving DecidableEq

/-- An EIP-1193 provider: `request` modelled as a pure function; a rejected
promise is `Except.error`. -/
def EIP1193Provider := RpcCall → Except String RpcResult

/-- Model of the `as string` cast on a provider result. -/
def asStr : Except String RpcResult → Except String String
  | .ok (.str s) => .ok s
  | .ok _ => .error "TypeError: expected string result"
  | .error e => .error e

/-- Model of the `as string[]` cast on a provider result. -/
def asStrList : Except String RpcResult → Except String (List String)
  | .ok (.strList l) => .ok l
  | .ok _ => .error "TypeError: expected string array result"
  | .error e => .error e

/-- Bind of a successful `Except` computation reduces to the
continuation. -/
theorem exceptBind_ok {ε α β : Type} (a : α) (f : α → Except ε β) :
    (Except.ok a >>= f) = f a := rfl

/-- Bind of a `pure` `Except` computation reduces to the continuation. -/
theorem exceptPure_bind {ε α β : Type} (a : α) (f : α → Except ε β) :
    ((pure a : Except ε α) >>= f) = f a := rfl

/-- Bind of a failed `Except` computation is that failure. -/
theorem exceptBind_err {ε α β : Type} (e : ε) (f : α → Except ε β) :
    ((Except.error e : Except ε α) >>= f) = .error e := rfl

/-! ## Constants (src/evm-permit/constants.ts, src/evm-permit2/constants.ts) -/

def NONCES_SELECTOR : String := "0x7ecebe00"
def NAME_SELECTOR : String := "0x06fdde03"
def ALLOWANCE_SELECTOR : String := "0xdd62ed3e"
def EIP712_DOMAIN_SELECTOR : String := "0x84b0196e"
def DEFAULT_PERMIT_VERSION : String := "1"

/-- Modelled from the spec: `VERSION_SELECTOR` is imported by
`src/evm-permit/allowance.ts` from `./constants` but its definition is not
part of the provided sources.  Per the spec it is the fixed 4-byte selector
of the canonical Solidity signature `version()` (`0x54fd4d50`); no claim
depends on its exact value, only on it being the call data of the
`version()` call. -/
def VERSION_SELECTOR : String := "0x54fd4d50"

def PERMIT2_DOMAIN_NAME : String := "Permit2"
def PERMIT2_ALLOWANCE_SELECTOR : String := "0x927da105"

/-! ## Signature parsing (src/evm-permit/sign-permit.ts, parseSignature) -/

/-- Parsed signature: `v` is `Option Nat` because `parseInt` of a slice
that holds no hex digit yields `NaN`. -/
structure ParsedSig where
  v : Option Nat
  r : String
  s : String
deriving DecidableEq

/-- Model of `parseSignature`: slice `r` from hex chars 0–63, `s` from
64–127, parse `v` from 128–129 and add 27 when it is below 27 (the
`NaN < 27` comparison is false in JS, so a `NaN` `v` stays `NaN`).  The
function performs no length validation and never throws. -/
def parseSignature (signature : String) : ParsedSig :=
  let sig := jsSliceFrom signature 2
  let r := "0x" ++ jsSlice sig 0 64
  let s := "0x" ++ jsSlice sig 64 128
  let v :=
    match parseIntHex (jsSlice sig 128 130) with
    | some n => if n < 27 then some (n + 27) else some n
    | none => none
  ⟨v, r, s⟩

/-! ## Permit2 allowance decoding (src/evm-permit2/allowance.ts) -/

/-- Decoded Permit2 allowance.  `amount` is a JS bigint (`Nat`);
`expiration` and `nonce` are built by `Number(BigInt(…))`, which is exact
below `2^53` — they are modelled as the exact word values, and the
theorems that speak about them only do so below `2^53`. -/
structure Permit2Allowance where
  amount : Nat
  expiration : Nat
  nonce : Nat
deriving DecidableEq

/-- Model of `decodeAllowanceResult`: strip the first `0x`, then read the
three 32-byte words with `BigInt('0x' + hex.slice(…))`.  There is no width
check on any field; the only failure is `BigInt` throwing when a word
slice is empty or contains a non-hex character. -/
def decodeAllowanceResult (result : String) : Except String Permit2Allowance := do
  let hex := String.mk (stripFirst0x result.data)
  let amount ← bigIntJS ("0x" ++ jsSlice hex 0 64)
  let expiration ← bigIntJS ("0x" ++ jsSlice hex 64 128)
  let nonce ← bigIntJS ("0x" ++ jsSlice hex 128 192)
  pure ⟨amount, expiration, nonce⟩

/-- Model of `isAllowanceSufficient` with `Date.now()` passed in as
`nowSec = Math.floor(Date.now() / 1000)`; `bufferSeconds` defaults to
1800 at call sites. -/
def isAllowanceSufficient (allowance : Permit2Allowance) (requiredAmount : Nat)
    (bufferSeconds : Nat) (nowSec : Nat) : Bool :=
  if allowance.amount < requiredAmount then false
  else if allowance.expiration < nowSec + bufferSeconds then false
  else true

/-! ## ERC-20 allowance / domain resolution (src/evm-permit/allowance.ts) -/

structure GetTokenNameParams where
  provider : EIP1193Provider
  tokenAddress : String

structure CheckERC20AllowanceParams where
  provider : EIP1193Provider
  tokenAddress : String
  ownerAddress : String
  spenderAddress : String

structure ERC20AllowanceInfo where
  allowance : String
  isSufficient : Bool
deriving DecidableEq

/-- Model of JavaScript `BigInt.prototype.toString()` (base 10): the
canonical decimal rendering of a non-negative bigint. -/
def natToDec (n : Nat) : String :=
  if n = 0 then "0"
  else String.mk ((Nat.digits 10 n).reverse.map fun d => Char.ofNat (48 + d))

/-- Shared model of the inline ABI-string decode used by `getTokenName`,
`getTokenVersion` and `decodeEip712Domain`: read the 32-byte length word
at hex-character position `pos`, then decode `length * 2` hex characters
starting right after it.  When the length word parses to `NaN`, the data
slice end index `pos + 64 + NaN*2` is `NaN`, which `slice` clamps to `0`,
so the data slice is empty.  The declared length is never checked against
the available hex: `slice` clamps it. -/
def decodeAbiStringAt (hex : String) (pos : Nat) : String :=
  match parseIntHex (jsSlice hex pos (pos + 64)) with
  | some len => hexToString (jsSlice hex (pos + 64) (pos + 64 + len * 2))
  | none => hexToString (jsSlice hex (pos + 64) 0)

/-- Model of `getTokenName`: `eth_call` with `NAME_SELECTOR`, then decode
the ABI-encoded string return as offset (ignored) + length word at hex
position 64 + data from position 128. -/
def getTokenName (params : GetTokenNameParams) : Except String String := do
  let result ← asStr (params.provider (.ethCall params.tokenAddress NAME_SELECTOR))
  let hex := jsSliceFrom result 2
  pure (decodeAbiStringAt hex 64)

/-- Model of `getERC20Allowance`: encode
`allowance(owner, spender)`, `eth_call` it, and render the `uint256`
result as a decimal string via `BigInt(result).toString()`. -/
def getERC20Allowance (params : CheckERC20AllowanceParams) : Except String String := do
  let paddedOwner := padStart (toLowerJs (jsSliceFrom params.ownerAddress 2)) 64 '0'
  let paddedSpender := padStart (toLowerJs (jsSliceFrom params.spenderAddress 2)) 64 '0'
  let callData := ALLOWANCE_SELECTOR ++ paddedOwner ++ paddedSpender
  let result ← asStr (params.provider (.ethCall params.tokenAddress callData))
  let n ← bigIntJS result
  pure (natToDec n)

/-- Model of `checkERC20Allowance`: re-parse the decimal allowance string
and compare it with the required amount using bigint comparison. -/
def checkERC20Allowance (params : CheckERC20AllowanceParams)
    (requiredAmount : String) : Except String ERC20AllowanceInfo := do
  let allowance ← getERC20Allowance params
  let a ← bigIntJS allowance
  let r ← bigIntJS requiredAmount
  pure ⟨allowance, decide (r ≤ a)⟩

/-- Model of `getTokenVersion`: `eth_call` with `VERSION_SELECTOR` and
decode the string return; ANY failure (rejected call or non-string result)
is caught and replaced by `DEFAULT_PERMIT_VERSION`. -/
def getTokenVersion (provider : EIP1193Provider) (tokenAddress : String) : String :=
  match asStr (provider (.ethCall tokenAddress VERSION_SELECTOR)) with
  | .ok result => decodeAbiStringAt (jsSliceFrom result 2) 64
  | .error _ => DEFAULT_PERMIT_VERSION

/-- EIP-712 domain info as resolved from a token.  `chainId` is
`Option Nat` because the fallback path computes it with `parseInt`, which
can yield `NaN`. -/
structure Eip712DomainInfo where
  name : String
  version : String
  chainId : Option Nat
  verifyingContract : String
deriving DecidableEq

/-- Model of `decodeEip712Domain`: fixed `chainId` word at byte offset 96
(hex chars 192–256, read with `BigInt`, the only failure point), then
`name` and `version` through their own offset words at hex chars 64–128
and 128–192.  A `NaN` offset word makes all subsequent slice indices `NaN`
(clamped to `0`), producing the empty string. -/
def decodeEip712Domain (result : String) (tokenAddress : String) :
    Except String Eip712DomainInfo := do
  let hex := jsSliceFrom result 2
  let chainId ← bigIntJS ("0x" ++ jsSlice hex 192 256)
  let name :=
    match parseIntHex (jsSlice hex 64 128) with
    | some off => decodeAbiStringAt hex (off * 2)
    | none => hexToString (jsSlice hex 0 0)
  let version :=
    match parseIntHex (jsSlice hex 128 192) with
    | some off => decodeAbiStringAt hex (off * 2)
    | none => hexToString (jsSlice hex 0 0)
  pure ⟨name, version, some chainId, tokenAddress⟩

/-- Model of `getEip712Domain`: try `eip712Domain()` and its decode; on
ANY failure in that try block fall back to `name()` (not caught — a
failure propagates), `version()` (internally defaulted), and
`eth_chainId`. -/
def getEip712Domain (provider : EIP1193Provider) (tokenAddress : String) :
    Except String Eip712DomainInfo :=
  match (do
    let result ← asStr (provider (.ethCall tokenAddress EIP712_DOMAIN_SELECTOR))
    decodeEip712Domain result tokenAddress) with
  | .ok d => .ok d
  | .error _ => do
      let name ← getTokenName ⟨provider, tokenAddress⟩
      let version := getTokenVersion provider tokenAddress
      let chainIdHex ← asStr (provider .ethChainId)
      pure ⟨name, version, parseIntHex chainIdHex, tokenAddress⟩

/-! ## EIP-712 typed-data assembly and signing
(src/evm-permit/sign-permit.ts, src/evm-permit2/sign-permit.ts) -/

/-- One entry of an EIP-712 `types` list: `{ name, type }`. -/
structure TypedField where
  fieldName : String
  fieldType : String
deriving DecidableEq

def ERC20_PERMIT_TYPES : List TypedField :=
  [⟨"owner", "address"⟩, ⟨"spender", "address"⟩, ⟨"value", "uint256"⟩,
   ⟨"nonce", "uint256"⟩, ⟨"deadline", "uint256"⟩]

def PERMIT_SINGLE_TYPES_PermitSingle : List TypedField :=
  [⟨"details", "PermitDetails"⟩, ⟨"spender", "address"⟩, ⟨"sigDeadline", "uint256"⟩]

def PERMIT_SINGLE_TYPES_PermitDetails : List TypedField :=
  [⟨"token", "address"⟩, ⟨"amount", "uint160"⟩, ⟨"expiration", "uint48"⟩,
   ⟨"nonce", "uint48"⟩]

/-- EIP-712 domain of the assembled typed data (4-field EIP-2612 variant). -/
structure Erc20Domain where
  name : String
  version : String
  chainId : Nat
  verifyingContract : String
deriving DecidableEq

/-- EIP-2612 `Permit` message. -/
structure PermitMessage where
  owner : String
  spender : String
  value : String
  nonce : Nat
  deadline : Nat
deriving DecidableEq

/-- Full EIP-2612 typed-data object (`types`, `primaryType`, `domain`,
`message`) as assembled by `signERC20Permit`. -/
structure Erc20TypedData where
  typesEIP712Domain : List TypedField
  typesPermit : List TypedField
  primaryType : String
  domain : Erc20Domain
  message : PermitMessage
deriving DecidableEq

/-- Assembly of the EIP-2612 typed data exactly as in `signERC20Permit`:
domain `name`/`version` come from the resolved `domainInfo`, `chainId`
comes from the caller's parameter, `verifyingContract` is the token. -/
def erc20TypedData (domainInfo : Eip712DomainInfo) (chainId : Nat)
    (tokenAddress signerAddress spenderAddress value : String)
    (nonce deadline : Nat) : Erc20TypedData :=
  { typesEIP712Domain :=
      [⟨"name", "string"⟩, ⟨"version", "string"⟩, ⟨"chainId", "uint256"⟩,
       ⟨"verifyingContract", "address"⟩]
    typesPermit := ERC20_PERMIT_TYPES
    primaryType := "Permit"
    domain := ⟨domainInfo.name, domainInfo.version, chainId, tokenAddress⟩
    message := ⟨signerAddress, spenderAddress, value, nonce, deadline⟩ }

/-- Rendering helpers for the `JSON.stringify(typedData)` payload.  The
exact text is irrelevant to every claim (only that equal typed data give
equal payloads, which holds for any function); the rendering is a plain
JSON-like serialization without string escaping. -/
def jstr (s : String) : String := "\"" ++ s ++ "\""

def renderFields (fs : List TypedField) : String :=
  "[" ++ String.intercalate ","
    (fs.map fun f => "\x7b\"name\":" ++ jstr f.fieldName ++ ",\"type\":" ++ jstr f.fieldType ++ "\x7d")
  ++ "]"

def stringifyErc20TypedData (td : Erc20TypedData) : String :=
  "\x7b\"types\":\x7b\"EIP712Domain\":" ++ renderFields td.typesEIP712Domain ++
  ",\"Permit\":" ++ renderFields td.typesPermit ++
  "\x7d,\"primaryType\":" ++ jstr td.primaryType ++
  ",\"domain\":\x7b\"name\":" ++ jstr td.domain.name ++
  ",\"version\":" ++ jstr td.domain.version ++
  ",\"chainId\":" ++ natToDec td.domain.chainId ++
  ",\"verifyingContract\":" ++ jstr td.domain.verifyingContract ++
  "\x7d,\"message\":\x7b\"owner\":" ++ jstr td.message.owner ++
  ",\"spender\":" ++ jstr td.message.spender ++
  ",\"value\":" ++ jstr td.message.value ++
  ",\"nonce\":" ++ natToDec td.message.nonce ++
  ",\"deadline\":" ++ natToDec td.message.deadline ++ "\x7d\x7d"

structure SignERC20PermitParams where
  provider : EIP1193Provider
  chainId : Nat
  tokenAddress : String
  tokenName : String
  spenderAddress : String
  value : String
  nonce : Nat
  deadlineMinutes : Option Nat
  signerAddress : Option String

structure ERC20PermitSignature where
  value : String
  deadline : Nat
  v : Option Nat
  r : String
  s : String
deriving DecidableEq

structure SignERC20PermitResult where
  permitSignature : ERC20PermitSignature
  signerAddress : String
deriving DecidableEq

/-- Model of `signERC20Permit` with `Date.now()` passed in as `nowMs`.
The signer address is the explicit `signerAddress` parameter when it is a
truthy (non-empty) string, otherwise `accounts[0]`; the EIP-712 domain is
resolved dynamically via `getEip712Domain`; the caller's `tokenName`
parameter is never read past destructuring. -/
def signERC20Permit (params : SignERC20PermitParams) (nowMs : Nat) :
    Except String SignERC20PermitResult := do
  let now := nowMs / 1000
  let deadline := now + (params.deadlineMinutes.getD 60) * 60
  let accounts0 ← asStrList (params.provider .ethAccounts)
  let accounts ←
    if accounts0.length = 0 then asStrList (params.provider .ethRequestAccounts)
    else pure accounts0
  if accounts.length = 0 then
    throw "No connected accounts"
  else
    let signerAddress :=
      match params.signerAddress with
      | some a => if a = "" then accounts.headD "" else a
      | none => accounts.headD ""
    let domainInfo ← getEip712Domain params.provider params.tokenAddress
    let typedData := erc20TypedData domainInfo params.chainId params.tokenAddress
      signerAddress params.spenderAddress params.value params.nonce deadline
    let signature ← asStr (params.provider
      (.ethSignTypedDataV4 signerAddress (stringifyErc20TypedData typedData)))
    let parsed := parseSignature signature
    pure ⟨⟨params.value, deadline, parsed.v, parsed.r, parsed.s⟩, signerAddress⟩

/-! ### Permit2 signing -/

structure PermitDetails where
  token : String
  amount : String
  expiration : Nat
  nonce : Nat
deriving DecidableEq

structure PermitSingle where
  details : PermitDetails
  spender : String
  sigDeadline : Nat
deriving DecidableEq

structure SignPermit2Params where
  provider : EIP1193Provider
  chainId : Nat
  permit2Address : String
  tokenAddress : String
  spenderAddress : String
  allowanceAmount : String
  expirationDays : Option Nat
  sigDeadlineMinutes : Option Nat
  nonce : Nat
  signerAddress : String

structure SignPermit2Result where
  permitSingle : PermitSingle
  signature : String
  signerAddress : String
deriving DecidableEq

/-- Permit2 typed-data payload rendering (3-field version-less domain). -/
def stringifyPermit2TypedData (chainId : Nat) (permit2Address : String)
    (p : PermitSingle) : String :=
  "\x7b\"types\":\x7b\"EIP712Domain\":" ++
  renderFields [⟨"name", "string"⟩, ⟨"chainId", "uint256"⟩, ⟨"verifyingContract", "address"⟩] ++
  ",\"PermitSingle\":" ++ renderFields PERMIT_SINGLE_TYPES_PermitSingle ++
  ",\"PermitDetails\":" ++ renderFields PERMIT_SINGLE_TYPES_PermitDetails ++
  "\x7d,\"primaryType\":\"PermitSingle\"" ++
  ",\"domain\":\x7b\"name\":" ++ jstr PERMIT2_DOMAIN_NAME ++
  ",\"chainId\":" ++ natToDec chainId ++
  ",\"verifyingContract\":" ++ jstr permit2Address ++
  "\x7d,\"message\":\x7b\"details\":\x7b\"token\":" ++ jstr p.details.token ++
  ",\"amount\":" ++ jstr p.details.amount ++
  ",\"expiration\":" ++ natToDec p.details.expiration ++
  ",\"nonce\":" ++ natToDec p.details.nonce ++
  "\x7d,\"spender\":" ++ jstr p.spender ++
  ",\"sigDeadline\":" ++ natToDec p.sigDeadline ++ "\x7d\x7d"

/-- Model of `signPermit2` with `Date.now()` passed in as `nowMs`: a falsy
(empty) `signerAddress` throws; `expiration = now + expirationDays*24*60*60`
(default 30 days) and `sigDeadline = now + sigDeadlineMinutes*60` (default
5 minutes) in whole seconds; the returned `permitSingle` is the signed
message verbatim. -/
def signPermit2 (params : SignPermit2Params) (nowMs : Nat) :
    Except String SignPermit2Result := do
  if params.signerAddress = "" then
    throw "signerAddress is required"
  else
    let now := nowMs / 1000
    let expiration := now + (params.expirationDays.getD 30) * 24 * 60 * 60
    let sigDeadline := now + (params.sigDeadlineMinutes.getD 5) * 60
    let permitSingle : PermitSingle :=
      ⟨⟨params.tokenAddress, params.allowanceAmount, expiration, params.nonce⟩,
       params.spenderAddress, sigDeadline⟩
    let signature ← asStr (params.provider
      (.ethSignTypedDataV4 params.signerAddress
        (stringifyPermit2TypedData params.chainId params.permit2Address permitSingle)))
    pure ⟨permitSingle, signature, params.signerAddress⟩

/-! ## Solana wallet discovery and connection (src/unnamed/part_002) -/

/-- Snapshot of a Solana provider object: its `isConnected` flag and the
string its `publicKey.toString()` reports (`none` for a `null` key). -/
structure SolProv where
  isConnected : Bool
  publicKey : Option String
deriving DecidableEq

/-- Model of `window.phantom.solana` for the connect flow.  `connectResult`
models `connect()`: `.error` is a rejected promise; `.ok k` is a resolved
response whose `publicKey` field is `k` (`none` models a missing key, whose
`.toString()` throws inside the `try`).  Per the wallet contract a resolved
`connect()` leaves the provider connected and reporting the key it
returned. -/
structure PhantomWallet where
  prov : SolProv
  connectResult : Except String (Option String)

/-- Model of `window.solflare`: `connectResult = .ok pk` means `connect()`
resolved and the provider reports `publicKey = pk` afterwards. -/
structure SolflareWallet where
  prov : SolProv
  connectResult : Except String (Option String)

/-- Ambient `window` globals scanned by the discovery helper, in source
order: `phantom?.solana`, `solflare`, `okxwallet?.solana`,
`coinbaseSolana`, `backpack?.solana`. -/
structure SolWindow where
  phantom : Option PhantomWallet
  solflare : Option SolflareWallet
  okxwallet : Option SolProv
  coinbaseSolana : Option SolProv
  backpack : Option SolProv

/-- Loop body of `findConnectedProvider`: skip absent providers, return
the first one that is connected and reports exactly the expected
address. -/
def findIn (providers : List (Option SolProv)) (expectedAddress : String) :
    Option SolProv :=
  match providers with
  | [] => none
  | none :: rest => findIn rest expectedAddress
  | some p :: rest =>
      if p.isConnected ∧ p.publicKey = some expectedAddress then some p
      else findIn rest expectedAddress

/-- Ordered provider candidates as built by `findConnectedProvider`. -/
def windowProviders (w : SolWindow) : List (Option SolProv) :=
  [w.phantom.map (·.prov), w.solflare.map (·.prov), w.okxwallet,
   w.coinbaseSolana, w.backpack]

/-- Model of `findConnectedProvider`. -/
def findConnectedProvider (w : SolWindow) (expectedAddress : String) :
    Option SolProv :=
  findIn (windowProviders w) expectedAddress

/-- Phantom step of `connectSolanaWallet`: `connect()` inside a `try`
whose response key must equal the expected address.  A rejected promise
and a missing response key (whose `.toString()` throws) are swallowed
(`none`); a mismatching key falls through without throwing.  On success
the returned object is the phantom provider, connected and reporting the
key `connect()` resolved with. -/
def connectPhantom (ph? : Option PhantomWallet) (expectedAddress : String) :
    Option SolProv :=
  match ph? with
  | some ph =>
    match ph.connectResult with
    | .ok (some k) =>
        if k = expectedAddress then some ⟨true, some k⟩ else none
    | _ => none
  | none => none

/-- Solflare step of `connectSolanaWallet`: `connect()` inside a `try`,
then the provider's OWN `publicKey` must equal the expected address. -/
def connectSolflare (sf? : Option SolflareWallet) (expectedAddress : String) :
    Option SolProv :=
  match sf? with
  | some sf =>
    match sf.connectResult with
    | .ok pk => if pk = some expectedAddress then some ⟨true, pk⟩ else none
    | .error _ => none
  | none => none

/-- Model of `connectSolanaWallet`: first an already-connected provider;
then a Phantom `connect()` whose response key must equal the expected
address (errors and a missing response key are swallowed); then a Solflare
`connect()` after which the provider's own key must equal the expected
address; otherwise a definitive error. -/
def connectSolanaWallet (w : SolWindow) (expectedAddress : String) :
    Except String SolProv :=
  match findConnectedProvider w expectedAddress with
  | some connected => .ok connected
  | none =>
    match connectPhantom w.phantom expectedAddress with
    | some p => .ok p
    | none =>
      match connectSolflare w.solflare expectedAddress with
      | some p => .ok p
      | none => .error ("Could not find wallet with address: " ++ expectedAddress
          ++ ". Please connect the correct wallet.")

/-! ## Base64 codec (src/unnamed/part_002, atob/btoa at the byte level) -/

/-- Standard base64 alphabet used by `btoa`/`atob`. -/
def sixBitChar (n : Nat) : Char :=
  if n < 26 then Char.ofNat (65 + n)
  else if n < 52 then Char.ofNat (97 + (n - 26))
  else if n < 62 then Char.ofNat (48 + (n - 52))
  else if n = 62 then '+'
  else '/'

/-- Inverse of the base64 alphabet; `none` for a character outside it. -/
def sixBitVal? (c : Char) : Option Nat :=
  if 'A' ≤ c ∧ c ≤ 'Z' then some (c.toNat - 65)
  else if 'a' ≤ c ∧ c ≤ 'z' then some (c.toNat - 97 + 26)
  else if '0' ≤ c ∧ c ≤ '9' then some (c.toNat - 48 + 52)
  else if c = '+' then some 62
  else if c = '/' then some 63
  else none

/-- Model of `btoa` on the byte values of the binary string
(`uint8ArrayToBase64` builds that string with `String.fromCharCode(bytes[i])`,
so its char codes are exactly the bytes): standard padded base64. -/
def btoaBytes : List Nat → List Char
  | [] => []
  | [a] => [sixBitChar (a / 4), sixBitChar (a % 4 * 16), '=', '=']
  | [a, b] => [sixBitChar (a / 4), sixBitChar (a % 4 * 16 + b / 16),
               sixBitChar (b % 16 * 4), '=']
  | a :: b :: c :: rest =>
      sixBitChar (a / 4) :: sixBitChar (a % 4 * 16 + b / 16) ::
      sixBitChar (b % 16 * 4 + c / 64) :: sixBitChar (c % 64) :: btoaBytes rest

/-- Model of `atob` producing the byte values of the decoded binary string
(`base64ToUint8Array` reads them back with `charCodeAt`): groups of four
characters, `=` padding only in the final group, any character outside the
alphabet is an `InvalidCharacterError` (`none`). -/
def atobBytes : List Char → Option (List Nat)
  | [] => some []
  | c1 :: c2 :: c3 :: c4 :: rest =>
      if c3 = '=' ∧ c4 = '=' ∧ rest = [] then do
        let v1 ← sixBitVal? c1
        let v2 ← sixBitVal? c2
        pure [v1 * 4 + v2 / 16]
      else if c4 = '=' ∧ rest = [] then do
        let v1 ← sixBitVal? c1
        let v2 ← sixBitVal? c2
        let v3 ← sixBitVal? c3
        pure [v1 * 4 + v2 / 16, v2 % 16 * 16 + v3 / 4]
      else do
        let v1 ← sixBitVal? c1
        let v2 ← sixBitVal? c2
        let v3 ← sixBitVal? c3
        let v4 ← sixBitVal? c4
        let tail ← atobBytes rest
        pure ((v1 * 4 + v2 / 16) :: (v2 % 16 * 16 + v3 / 4) :: (v3 % 4 * 64 + v4) :: tail)
  | _ => none

/-- Model of `uint8ArrayToBase64`: bytes → binary string → `btoa`. -/
def uint8ArrayToBase64 (bytes : List Nat) : String :=
  String.mk (btoaBytes bytes)

/-- Model of `base64ToUint8Array`: `atob` (which throws on invalid input)
then `charCodeAt` per character. -/
def base64ToUint8Array (base64 : String) : Except String (List Nat) :=
  match atobBytes base64.data with
  | some bytes => .ok bytes
  | none => .error "InvalidCharacterError"

/-! ## Helper lemmas about the string primitives -/

theorem mk_data (s : String) : String.mk s.data = s := rfl

theorem length_eq_data_length (s : String) : s.length = s.data.length := rfl

theorem jsSliceFrom_append (p t : String) : jsSliceFrom (p ++ t) p.length = t := by
  unfold jsSliceFrom
  rw [length_eq_data_length, String.data_append, List.drop_left, mk_data]

theorem jsSlice_first (t u : String) : jsSlice (t ++ u) 0 t.length = t := by
  unfold jsSlice
  rw [String.data_append, List.drop_zero, Nat.sub_zero, length_eq_data_length,
    List.take_left, mk_data]

theorem jsSlice_last (p t : String) :
    jsSlice (p ++ t) p.length (p.length + t.length) = t := by
  unfold jsSlice
  rw [String.data_append, length_eq_data_length, List.drop_left,
    Nat.add_sub_cancel_left, length_eq_data_length, List.take_length, mk_data]

theorem jsSlice_mid (p t u : String) :
    jsSlice (p ++ t ++ u) p.length (p.length + t.length) = t := by
  unfold jsSlice
  rw [String.data_append, String.data_append, List.append_assoc,
    length_eq_data_length, List.drop_left, Nat.add_sub_cancel_left,
    length_eq_data_length, List.take_left, mk_data]

/-! ## C1: Permit2 allowance decoding and field widths -/

/-- C1 counterexample: the claim says decoding a return value with any
non-zero bit outside the declared field width raises a validation error.
On the code, a return whose first word is `2^160` (one bit above the
`uint160` width) and whose second word is `2^48` (one bit above the
`uint48` width) decodes successfully to exactly those oversized values —
no error is raised. -/
theorem C1_counterexample :
    decodeAllowanceResult ("0x"
      ++ "0000000000000000000000010000000000000000000000000000000000000000"
      ++ "0000000000000000000000000000000000000000000000000001000000000000"
      ++ "0000000000000000000000000000000000000000000000000000000000000001")
      = .ok ⟨2 ^ 160, 2 ^ 48, 1⟩
      ∧ 2 ^ 160 > 2 ^ 160 - 1 ∧ 2 ^ 48 > 2 ^ 48 - 1 := by
  refine ⟨by rfl, by norm_num, by norm_num⟩

/-- C1 (amended): `decodeAllowanceResult` performs no width validation at
all — it returns the full integer value of each 32-byte word (`amount`
from word 0, `expiration` from word 1, `nonce` from word 2), whether or
not the value fits the declared `uint160`/`uint48` width; in particular a
value within bounds decodes to exactly that integer.  (The `2^53` bounds
on `expiration`/`nonce` mark where the JS `Number(...)` conversion is
exact; `uint48` values always satisfy them.) -/
theorem C1_decodeAllowanceResult_returns_word_values
    (w1 w2 w3 : String) (a e n : Nat)
    (h1 : w1.length = 64) (h2 : w2.length = 64) (h3 : w3.length = 64)
    (ha : bigIntJS ("0x" ++ w1) = .ok a)
    (he : bigIntJS ("0x" ++ w2) = .ok e)
    (hn : bigIntJS ("0x" ++ w3) = .ok n)
    (_he53 : e < 2 ^ 53) (_hn53 : n < 2 ^ 53) :
    decodeAllowanceResult ("0x" ++ w1 ++ w2 ++ w3) = .ok ⟨a, e, n⟩ := by
  have hdata : ("0x" ++ w1 ++ w2 ++ w3).data
      = '0' :: 'x' :: (w1 ++ w2 ++ w3).data := by
    simp [String.data_append]
  have hstrip : String.mk (stripFirst0x ("0x" ++ w1 ++ w2 ++ w3).data)
      = w1 ++ w2 ++ w3 := by
    rw [hdata]; simp only [stripFirst0x]
  have hs1 : jsSlice (w1 ++ w2 ++ w3) 0 64 = w1 := by
    have := jsSlice_first w1 (w2 ++ w3)
    rwa [h1, ← String.append_assoc] at this
  have hs2 : jsSlice (w1 ++ w2 ++ w3) 64 128 = w2 := by
    have := jsSlice_mid w1 w2 w3
    rwa [h1, h2] at this
  have hs3 : jsSlice (w1 ++ w2 ++ w3) 128 192 = w3 := by
    have := jsSlice_last (w1 ++ w2) w3
    rwa [String.length_append, h1, h2, h3] at this
  unfold decodeAllowanceResult
  rw [hstrip]
  simp only [hs1, hs2, hs3, ha, he, hn]
  rfl

/-- C1 witness: the spec's own in-bounds example — an `amount` word ending
in `2710` decodes to exactly `10000` (with expiration `100`, nonce `5`). -/
theorem C1_witness :
    decodeAllowanceResult ("0x"
      ++ "0000000000000000000000000000000000000000000000000000000000002710"
      ++ "0000000000000000000000000000000000000000000000000000000000000064"
      ++ "0000000000000000000000000000000000000000000000000000000000000005")
      = .ok ⟨10000, 100, 5⟩ :=
  C1_decodeAllowanceResult_returns_word_values
    "0000000000000000000000000000000000000000000000000000000000002710"
    "0000000000000000000000000000000000000000000000000000000000000064"
    "0000000000000000000000000000000000000000000000000000000000000005"
    10000 100 5 (by decide) (by decide) (by decide) (by rfl) (by rfl)
    (by rfl) (by norm_num) (by norm_num)

/-! ## C3, C4: signature parsing -/

/-- Hex rendering of one byte (two lowercase hex characters), used to
state the trailing-byte theorems. -/
def byteToHex (b : Nat) : String :=
  String.mk [Char.ofNat (hexDigitCode (b / 16 % 16)), Char.ofNat (hexDigitCode (b % 16))]
where
  hexDigitCode (d : Nat) : Nat := if d < 10 then 48 + d else 97 + (d - 10)

theorem parseIntHex_byteToHex : ∀ b < 256, parseIntHex (byteToHex b) = some b := by
  decide

/-- C3 counterexample: the claim says any input that is not `0x` plus 130
hex characters fails with a decode error.  On the code, `parseSignature`
cannot fail: on the 2-byte input `0xabcd` it silently produces a 2-byte
`r` (`"0xabcd"`, not 32 bytes), an empty `s` (`"0x"`), and a `NaN` `v` —
no error is raised. -/
theorem C3_counterexample :
    parseSignature "0xabcd" = ⟨none, "0xabcd", "0x"⟩
      ∧ ("0xabcd" : String).length ≠ 66 ∧ ("0x" : String).length ≠ 66 := by
  refine ⟨by rfl, by decide, by decide⟩

/-- C3 (amended): `parseSignature` performs no length validation and never
raises an error — a malformed input yields truncated/garbage components —
but for every well-formed 65-byte input (`0x` + 130 hex characters), the
returned `r` is exactly bytes 0–31 (`0x` + hex characters 0–63, 66
characters long), `s` is exactly bytes 32–63 (hex characters 64–127, 66
characters long), and `v` comes from byte 64 (hex characters 128–129). -/
theorem C3_parseSignature_well_formed_split (body : String)
    (h : body.length = 130) :
    (parseSignature ("0x" ++ body)).r = "0x" ++ jsSlice body 0 64
    ∧ (parseSignature ("0x" ++ body)).s = "0x" ++ jsSlice body 64 128
    ∧ (parseSignature ("0x" ++ body)).r.length = 66
    ∧ (parseSignature ("0x" ++ body)).s.length = 66 := by
  have hsig : jsSliceFrom ("0x" ++ body) 2 = body := jsSliceFrom_append "0x" body
  have hlen : ∀ a b : Nat, a ≤ b → b ≤ 130 →
      (jsSlice body a b).length = b - a := by
    intro a b hab hb
    unfold jsSlice
    rw [length_eq_data_length]
    simp only [String.length] at h
    rw [List.length_take, List.length_drop, h]
    omega
  have hr : (jsSlice body 0 64).length = 64 := by
    have := hlen 0 64 (by omega) (by omega); simpa using this
  have hs : (jsSlice body 64 128).length = 64 := by
    have := hlen 64 128 (by omega) (by omega); simpa using this
  unfold parseSignature
  rw [hsig]
  refine ⟨rfl, rfl, ?_, ?_⟩ <;>
    simp [String.length_append, hr, hs] <;> rfl

/-- C3 witness at a concrete 65-byte signature. -/
theorem C3_witness :
    (String.mk (List.replicate 128 'a') ++ "1b").length = 130
    ∧ (parseSignature ("0x" ++ (String.mk (List.replicate 128 'a') ++ "1b"))).r
        = "0x" ++ jsSlice (String.mk (List.replicate 128 'a') ++ "1b") 0 64 := by
  have h : (String.mk (List.replicate 128 'a') ++ "1b").length = 130 := by decide
  exact ⟨h, (C3_parseSignature_well_formed_split _ h).1⟩

/-- C4 counterexample: the claim says for EVERY 65-byte signature the
parsed `v` lands in `{27, 28}`.  A signature whose trailing byte is `0x02`
(below 27, so 27 is added) parses to `v = 29`, which is in neither. -/
theorem C4_counterexample :
    (parseSignature ("0x" ++ String.mk (List.replicate 128 'a') ++ "02")).v = some 29
    ∧ (29 : Nat) ≠ 27 ∧ (29 : Nat) ≠ 28 := by
  refine ⟨by rfl, by decide, by decide⟩

/-- C4 (amended): for every 65-byte signature, the parsed `v` is the raw
trailing byte plus 27 when that byte is below 27 (`0x00 ↦ 27`,
`0x01 ↦ 28`), and the raw byte unchanged otherwise (`0x1b = 27 ↦ 27`);
so `v ∈ {27, 28}` exactly when the raw byte is one of
`{0, 1, 27, 28}`. -/
theorem C4_parseSignature_v_normalization (body : String) (b : Nat)
    (hbody : body.length = 128) (hb : b < 256) :
    (parseSignature ("0x" ++ (body ++ byteToHex b))).v
      = some (if b < 27 then b + 27 else b) := by
  have hsig : jsSliceFrom ("0x" ++ (body ++ byteToHex b)) 2 = body ++ byteToHex b :=
    jsSliceFrom_append "0x" (body ++ byteToHex b)
  have hhexlen : (byteToHex b).length = 2 := rfl
  have hv : jsSlice (body ++ byteToHex b) 128 130 = byteToHex b := by
    have := jsSlice_last body (byteToHex b)
    rwa [hbody, hhexlen] at this
  unfold parseSignature
  rw [hsig]
  simp only [hv, parseIntHex_byteToHex b hb]
  split <;> rfl

/-- C4 witness: the three instances named by the spec — trailing byte
`0x00` gives `v = 27`, `0x01` gives `28`, `0x1b` (27) stays `27`. -/
theorem C4_witness :
    (parseSignature ("0x" ++ (String.mk (List.replicate 128 'a') ++ byteToHex 0))).v = some 27
    ∧ (parseSignature ("0x" ++ (String.mk (List.replicate 128 'a') ++ byteToHex 1))).v = some 28
    ∧ (parseSignature ("0x" ++ (String.mk (List.replicate 128 'a') ++ byteToHex 27))).v = some 27 := by
  have h : (String.mk (List.replicate 128 'a')).length = 128 := by decide
  refine ⟨?_, ?_, ?_⟩
  · simpa using C4_parseSignature_v_normalization _ 0 h (by omega)
  · simpa using C4_parseSignature_v_normalization _ 1 h (by omega)
  · simpa using C4_parseSignature_v_normalization _ 27 h (by omega)

/-! ## C2: dynamic string decodes never validate the declared length -/

theorem jsSlice_length (s : String) (a b : Nat) :
    (jsSlice s a b).length = min (b - a) (s.length - a) := by
  unfold jsSlice
  rw [length_eq_data_length, length_eq_data_length]
  simp [List.length_take, List.length_drop]

theorem hexPairsToChars_length :
    ∀ cs : List Char, (hexPairsToChars cs).length = (cs.length + 1) / 2
  | [] => rfl
  | [_] => by simp [hexPairsToChars]
  | _ :: _ :: rest => by
      simp only [hexPairsToChars, List.length_cons,
        hexPairsToChars_length rest]
      omega

theorem hexToString_length (h : String) :
    (hexToString h).length = (h.length + 1) / 2 := by
  unfold hexToString
  rw [length_eq_data_length]
  exact hexPairsToChars_length h.data

/-- C2 counterexample: the claim says a declared dynamic length that runs
past the available return data makes decoding fail with a decode error.
On the code, a `name()` return that declares length `0x64` (100 bytes)
over only 32 available data bytes decodes successfully — `slice` clamps
to the 32 available bytes and the call returns `"USD Coin"` padded with
24 NUL characters, with no error. -/
theorem C2_counterexample :
    getTokenName
      ⟨fun c =>
        match c with
        | .ethCall _ d =>
            if d = NAME_SELECTOR then
              .ok (.str ("0x"
                ++ "0000000000000000000000000000000000000000000000000000000000000020"
                ++ "0000000000000000000000000000000000000000000000000000000000000064"
                ++ "55534420436f696e000000000000000000000000000000000000000000000000"))
            else .error "execution reverted"
        | _ => .error "unsupported method", "0xtokenaddress"⟩
      = .ok ("USD Coin" ++ String.mk (List.replicate 24 (Char.ofNat 0)))
    ∧ (100 : Nat) * 2 > 192 - 128 := by
  exact ⟨by rfl, by norm_num⟩

/-- C2 (amended): neither dynamic decode validates the declared length
against the available hex.  For `getTokenName`, when the declared length
`L` runs past the available return data, the decode still succeeds and
returns the `slice`-clamped data — a string of exactly
`(available hex chars after position 128 + 1) / 2` characters instead of
`L` — and for `decodeEip712Domain`, the only failure point is a malformed
`chainId` word: whenever that word is valid hex the decode succeeds, no
matter what the offset and length words declare. -/
theorem C2_dynamic_decode_clamps (provider : EIP1193Provider)
    (ta s : String) (L : Nat)
    (hres : provider (.ethCall ta NAME_SELECTOR) = .ok (.str s))
    (hL : parseIntHex (jsSlice (jsSliceFrom s 2) 64 128) = some L)
    (h128 : 128 ≤ (jsSliceFrom s 2).length)
    (havail : (jsSliceFrom s 2).length < 128 + L * 2) :
    getTokenName ⟨provider, ta⟩
      = .ok (hexToString (jsSlice (jsSliceFrom s 2) 128 (128 + L * 2)))
    ∧ (hexToString (jsSlice (jsSliceFrom s 2) 128 (128 + L * 2))).length
        = ((jsSliceFrom s 2).length - 128 + 1) / 2
    ∧ ∀ (res2 ta2 : String) (c : Nat),
        bigIntJS ("0x" ++ jsSlice (jsSliceFrom res2 2) 192 256) = .ok c →
        ∃ d, decodeEip712Domain res2 ta2 = .ok d ∧ d.chainId = some c := by
  refine ⟨?_, ?_, ?_⟩
  · unfold getTokenName
    simp only [hres]
    show Except.ok (decodeAbiStringAt (jsSliceFrom s 2) 64) = _
    unfold decodeAbiStringAt
    rw [hL]
  · rw [hexToString_length, jsSlice_length]
    omega
  · intro res2 ta2 c hc
    unfold decodeEip712Domain
    simp only [hc]
    exact ⟨_, rfl, rfl⟩

/-- C2 witness: the counterexample input instantiates the amended theorem
with declared length 100 over 32 available data bytes, producing a
16-character… rather, a 32-character clamped name. -/
theorem C2_witness :
    getTokenName
      ⟨fun c =>
        match c with
        | .ethCall _ d =>
            if d = NAME_SELECTOR then
              .ok (.str ("0x"
                ++ "00000000000000000000000000000000000000000000000000000000000000a0"
                ++ "0000000000000000000000000000000000000000000000000000000000000032"
                ++ "4142430000000000000000000000000000000000000000000000000000000000"))
            else .error "execution reverted"
        | _ => .error "unsupported method", "0xtoken2"⟩
      = .ok (hexToString (jsSlice (jsSliceFrom ("0x"
                ++ "00000000000000000000000000000000000000000000000000000000000000a0"
                ++ "0000000000000000000000000000000000000000000000000000000000000032"
                ++ "4142430000000000000000000000000000000000000000000000000000000000") 2) 128 (128 + 50 * 2))) :=
  (C2_dynamic_decode_clamps _ "0xtoken2" _ 50 (by rfl) (by rfl)
    (by decide) (by decide)).1

/-! ## C6: eip712Domain() failure is recoverable, with exact fallback shape -/

/-- C6: when the `eip712Domain()` call fails, `getEip712Domain` falls back
to three independent calls and builds the domain from them:
(a) a failure of the fallback `name()` call propagates to the caller with
that very error (it is not swallowed);
(b) when `name()` and `eth_chainId` succeed the result is built from the
`name()` string, the `version()` resolution and the parsed chain id;
(c) a failure of the `version()` call is swallowed and replaced by the
fixed fallback `DEFAULT_PERMIT_VERSION`, which is the string `"1"`. -/
theorem C6_getEip712Domain_fallback (provider : EIP1193Provider) (ta e : String)
    (h1 : provider (.ethCall ta EIP712_DOMAIN_SELECTOR) = .error e) :
    (∀ err, getTokenName ⟨provider, ta⟩ = .error err →
        getEip712Domain provider ta = .error err)
    ∧ (∀ nm cid, getTokenName ⟨provider, ta⟩ = .ok nm →
        asStr (provider .ethChainId) = .ok cid →
        getEip712Domain provider ta
          = .ok ⟨nm, getTokenVersion provider ta, parseIntHex cid, ta⟩)
    ∧ (∀ e2, provider (.ethCall ta VERSION_SELECTOR) = .error e2 →
        getTokenVersion provider ta = DEFAULT_PERMIT_VERSION)
    ∧ DEFAULT_PERMIT_VERSION = "1" := by
  have hscrut : (do
      let result ← asStr (provider (.ethCall ta EIP712_DOMAIN_SELECTOR))
      decodeEip712Domain result ta) = (.error e : Except String Eip712DomainInfo) := by
    rw [h1]
    rfl
  refine ⟨?_, ?_, ?_, rfl⟩
  · intro err herr
    unfold getEip712Domain
    rw [hscrut]
    show (do
      let name ← getTokenName ⟨provider, ta⟩
      let version := getTokenVersion provider ta
      let chainIdHex ← asStr (provider .ethChainId)
      pure (⟨name, version, parseIntHex chainIdHex, ta⟩ : Eip712DomainInfo)) = _
    rw [herr]
    rfl
  · intro nm cid hnm hcid
    unfold getEip712Domain
    rw [hscrut]
    show (do
      let name ← getTokenName ⟨provider, ta⟩
      let version := getTokenVersion provider ta
      let chainIdHex ← asStr (provider .ethChainId)
      pure (⟨name, version, parseIntHex chainIdHex, ta⟩ : Eip712DomainInfo)) = _
    rw [hnm]
    show (do
      let chainIdHex ← asStr (provider .ethChainId)
      pure (⟨nm, getTokenVersion provider ta, parseIntHex chainIdHex, ta⟩
        : Eip712DomainInfo)) = _
    rw [hcid]
    rfl
  · intro e2 he2
    unfold getTokenVersion
    rw [he2]
    rfl

/-- C6 witness: a concrete provider whose `eip712Domain()` reverts, whose
`name()` returns the ABI encoding of `"USD Coin"`, whose `version()`
reverts, and whose `eth_chainId` is `0x1`: the domain resolves to
`name = "USD Coin"`, `version = "1"`, `chainId = 1`. -/
theorem C6_witness :
    getEip712Domain
      (fun c =>
        match c with
        | .ethCall _ d =>
            if d = NAME_SELECTOR then
              .ok (.str ("0x"
                ++ "0000000000000000000000000000000000000000000000000000000000000020"
                ++ "0000000000000000000000000000000000000000000000000000000000000008"
                ++ "55534420436f696e000000000000000000000000000000000000000000000000"))
            else .error "execution reverted"
        | .ethChainId => .ok (.str "0x1")
        | _ => .error "unsupported method") "0xtokenC6"
      = .ok ⟨"USD Coin", "1", some 1, "0xtokenC6"⟩ := by
  have h := C6_getEip712Domain_fallback
    (fun c =>
      match c with
      | .ethCall _ d =>
          if d = NAME_SELECTOR then
            .ok (.str ("0x"
              ++ "0000000000000000000000000000000000000000000000000000000000000020"
              ++ "0000000000000000000000000000000000000000000000000000000000000008"
              ++ "55534420436f696e000000000000000000000000000000000000000000000000"))
          else .error "execution reverted"
      | .ethChainId => .ok (.str "0x1")
      | _ => .error "unsupported method") "0xtokenC6" "execution reverted" (by rfl)
  have h2 := h.2.1 "USD Coin" "0x1" (by rfl) (by rfl)
  have h3 := (h.2.2.1) "execution reverted" (by rfl)
  rw [h2, h3]
  rfl

/-! ## C5: deadline arithmetic and dynamically resolved domain version -/

/-- C5: at a fixed current time `nowMs` (Unix milliseconds),
`signERC20Permit` signs a Permit whose `deadline` is exactly
`⌊nowMs/1000⌋ + deadlineMinutes*60` seconds, over typed data whose domain
`version` is the one returned by the `getEip712Domain` resolution (the
signing request carries exactly that typed data); and `signPermit2`
produces `expiration = ⌊nowMs/1000⌋ + expirationDays*24*60*60` and
`sigDeadline = ⌊nowMs/1000⌋ + sigDeadlineMinutes*60`. -/
theorem C5_deadlines_and_domain_version
    (provider provider2 : EIP1193Provider) (nowMs : Nat)
    (chainId : Nat) (ta tokName spender value signer : String) (nonce m : Nat)
    (accts : List String) (dom : Eip712DomainInfo) (sig : String)
    (hsigner : ¬ signer = "")
    (hacc : asStrList (provider .ethAccounts) = .ok accts)
    (hne : ¬ accts.length = 0)
    (hdom : getEip712Domain provider ta = .ok dom)
    (hsig : provider (.ethSignTypedDataV4 signer
        (stringifyErc20TypedData (erc20TypedData dom chainId ta signer spender value
          nonce (nowMs / 1000 + m * 60)))) = .ok (.str sig))
    (chainId2 : Nat) (p2addr token2 spender2 amt2 signer2 : String)
    (d2 m2 nonce2 : Nat) (sig2 : String)
    (hsigner2 : ¬ signer2 = "")
    (hsig2 : provider2 (.ethSignTypedDataV4 signer2
        (stringifyPermit2TypedData chainId2 p2addr
          ⟨⟨token2, amt2, nowMs / 1000 + d2 * 24 * 60 * 60, nonce2⟩, spender2,
            nowMs / 1000 + m2 * 60⟩)) = .ok (.str sig2)) :
    signERC20Permit
        ⟨provider, chainId, ta, tokName, spender, value, nonce, some m, some signer⟩ nowMs
      = .ok ⟨⟨value, nowMs / 1000 + m * 60, (parseSignature sig).v,
          (parseSignature sig).r, (parseSignature sig).s⟩, signer⟩
    ∧ (erc20TypedData dom chainId ta signer spender value nonce
        (nowMs / 1000 + m * 60)).domain.version = dom.version
    ∧ signPermit2
        ⟨provider2, chainId2, p2addr, token2, spender2, amt2, some d2, some m2,
          nonce2, signer2⟩ nowMs
      = .ok ⟨⟨⟨token2, amt2, nowMs / 1000 + d2 * 24 * 60 * 60, nonce2⟩, spender2,
          nowMs / 1000 + m2 * 60⟩, sig2, signer2⟩ := by
  refine ⟨?_, rfl, ?_⟩
  · unfold signERC20Permit
    simp only [hacc, exceptBind_ok, Option.getD_some]
    rw [if_neg hne]
    simp only [exceptPure_bind]
    rw [if_neg hne, if_neg hsigner, hdom]
    simp only [exceptBind_ok]
    rw [hsig]
    rfl
  · unfold signPermit2
    rw [if_neg hsigner2]
    simp only [Option.getD_some]
    rw [hsig2]
    rfl

/-- Concrete EIP-5267 `eip712Domain()` return used by the C5 witness:
`fields` word, name offset `0xe0`, version offset `0x120`, `chainId = 1`,
then the `"USD Coin"` and `"2"` string blocks. -/
def c5EipRet : String := "0x"
  ++ "0f00000000000000000000000000000000000000000000000000000000000000"
  ++ "00000000000000000000000000000000000000000000000000000000000000e0"
  ++ "0000000000000000000000000000000000000000000000000000000000000120"
  ++ "0000000000000000000000000000000000000000000000000000000000000001"
  ++ "0000000000000000000000000000000000000000000000000000000000000000"
  ++ "0000000000000000000000000000000000000000000000000000000000000000"
  ++ "0000000000000000000000000000000000000000000000000000000000000000"
  ++ "0000000000000000000000000000000000000000000000000000000000000008"
  ++ "55534420436f696e000000000000000000000000000000000000000000000000"
  ++ "0000000000000000000000000000000000000000000000000000000000000001"
  ++ "3200000000000000000000000000000000000000000000000000000000000000"

/-- Concrete provider for the C5 witness: one connected account,
`eip712Domain()` answers `c5EipRet`, signing answers `0xsig`. -/
def c5Provider : EIP1193Provider := fun c =>
  match c with
  | .ethCall _ d =>
      if d = EIP712_DOMAIN_SELECTOR then .ok (.str c5EipRet)
      else .error "execution reverted"
  | .ethAccounts => .ok (.strList ["0xowner"])
  | .ethSignTypedDataV4 _ _ => .ok (.str "0xsig")
  | _ => .error "unsupported method"

/-- Concrete Permit2 provider for the C5 witness. -/
def c5Provider2 : EIP1193Provider := fun c =>
  match c with
  | .ethSignTypedDataV4 _ _ => .ok (.str "0xsig2")
  | _ => .error "unsupported method"

/-- C5 witness: at mocked time `T = 1700000000000` ms, a 60-minute permit
deadline is `1700000000 + 3600`, the resolved domain version is the
dynamically decoded `"2"` (USDC-style), and the Permit2 expiration and
signature deadline are 30 days and 5 minutes from `T`. -/
theorem C5_witness :
    signERC20Permit
        ⟨c5Provider, 43113, "0xtok", "USD Coin", "0xspender", "1000000", 0,
          some 60, some "0xowner"⟩ 1700000000000
      = .ok ⟨⟨"1000000", 1700000000000 / 1000 + 60 * 60, (parseSignature "0xsig").v,
          (parseSignature "0xsig").r, (parseSignature "0xsig").s⟩, "0xowner"⟩
    ∧ (erc20TypedData ⟨"USD Coin", "2", some 1, "0xtok"⟩ 43113 "0xtok" "0xowner"
        "0xspender" "1000000" 0 (1700000000000 / 1000 + 60 * 60)).domain.version = "2"
    ∧ signPermit2
        ⟨c5Provider2, 43113, "0xpermit2", "0xtok", "0xspender", "0xffff",
          some 30, some 5, 0, "0xowner"⟩ 1700000000000
      = .ok ⟨⟨⟨"0xtok", "0xffff", 1700000000000 / 1000 + 30 * 24 * 60 * 60, 0⟩,
          "0xspender", 1700000000000 / 1000 + 5 * 60⟩, "0xsig2", "0xowner"⟩ :=
  C5_deadlines_and_domain_version c5Provider c5Provider2 1700000000000
    43113 "0xtok" "USD Coin" "0xspender" "1000000" "0xowner" 0 60
    ["0xowner"] ⟨"USD Coin", "2", some 1, "0xtok"⟩ "0xsig"
    (by decide) (by rfl) (by decide) (by rfl) (by rfl)
    43113 "0xpermit2" "0xtok" "0xspender" "0xffff" "0xowner" 30 5 0 "0xsig2"
    (by decide) (by rfl)

/-! ## C9: tokenName does not influence the ERC-20 permit signing -/

/-- C9: two `signERC20Permit` calls that differ only in the `tokenName`
parameter are indistinguishable — same provider interaction (the equality
holds for EVERY provider, so the typed-data payload handed to
`eth_signTypedData_v4` is the same function of the other inputs) and the
same result: `tokenName` is destructured but never used, because the
EIP-712 domain name comes from the dynamic `getEip712Domain`
resolution. -/
theorem C9_tokenName_noninterference
    (provider : EIP1193Provider) (chainId : Nat)
    (ta tn1 tn2 spender value : String) (nonce : Nat)
    (dm : Option Nat) (sa : Option String) (nowMs : Nat) :
    signERC20Permit ⟨provider, chainId, ta, tn1, spender, value, nonce, dm, sa⟩ nowMs
      = signERC20Permit ⟨provider, chainId, ta, tn2, spender, value, nonce, dm, sa⟩ nowMs :=
  rfl

/-! ## C10: connectSolanaWallet only returns a matching provider -/

theorem findIn_publicKey (ps : List (Option SolProv)) (e : String) (p : SolProv)
    (h : findIn ps e = some p) :
    p.isConnected = true ∧ p.publicKey = some e := by
  induction ps with
  | nil => simp [findIn] at h
  | cons q rest ih =>
    cases q with
    | none =>
      exact ih (by simpa [findIn] using h)
    | some q' =>
      rw [show findIn (some q' :: rest) e
          = if q'.isConnected ∧ q'.publicKey = some e then some q'
            else findIn rest e from rfl] at h
      split_ifs at h with hc
      · obtain rfl : q' = p := by injection h
        exact ⟨hc.1, hc.2⟩
      · exact ih h

theorem connectPhantom_publicKey (ph? : Option PhantomWallet) (e : String)
    (p : SolProv) (h : connectPhantom ph? e = some p) :
    p.publicKey = some e := by
  cases ph? with
  | none => simp [connectPhantom] at h
  | some ph =>
    cases hcr : ph.connectResult with
    | error er => rw [connectPhantom, hcr] at h; cases h
    | ok k =>
      cases k with
      | none => rw [connectPhantom, hcr] at h; cases h
      | some kk =>
        rw [connectPhantom, hcr] at h
        have h' : (if kk = e then some (⟨true, some kk⟩ : SolProv) else none)
            = some p := h
        split_ifs at h' with hk
        obtain rfl : (⟨true, some kk⟩ : SolProv) = p := by injection h'
        rw [hk]

theorem connectSolflare_publicKey (sf? : Option SolflareWallet) (e : String)
    (p : SolProv) (h : connectSolflare sf? e = some p) :
    p.publicKey = some e := by
  cases sf? with
  | none => simp [connectSolflare] at h
  | some sf =>
    cases hcr : sf.connectResult with
    | error er => rw [connectSolflare, hcr] at h; cases h
    | ok pk =>
      rw [connectSolflare, hcr] at h
      have h' : (if pk = some e then some (⟨true, pk⟩ : SolProv) else none)
          = some p := h
      split_ifs at h' with hk
      obtain rfl : (⟨true, pk⟩ : SolProv) = p := by injection h'
      exact hk

/-- C10: whenever `connectSolanaWallet` returns a provider instead of
throwing, that provider reports exactly the expected address (plain `==`
string equality, case-sensitive) — on the already-connected path, the
Phantom connect path and the Solflare connect path alike. -/
theorem C10_connectSolanaWallet_returns_expected (w : SolWindow) (e : String)
    (p : SolProv) (h : connectSolanaWallet w e = .ok p) :
    p.publicKey = some e := by
  unfold connectSolanaWallet at h
  cases hf : findConnectedProvider w e with
  | some q =>
    rw [hf] at h
    obtain rfl : q = p := by injection h
    exact (findIn_publicKey _ _ _ hf).2
  | none =>
    rw [hf] at h
    cases hph : connectPhantom w.phantom e with
    | some q =>
      rw [hph] at h
      obtain rfl : q = p := by injection h
      exact connectPhantom_publicKey _ _ _ hph
    | none =>
      rw [hph] at h
      cases hsf : connectSolflare w.solflare e with
      | some q =>
        rw [hsf] at h
        obtain rfl : q = p := by injection h
        exact connectSolflare_publicKey _ _ _ hsf
      | none =>
        rw [hsf] at h
        cases h

/-- C10 witness: a window where only Solflare exists and its connect
handshake lands on the expected address. -/
theorem C10_witness :
    connectSolanaWallet
      ⟨none, some ⟨⟨false, none⟩, .ok (some "SoLAddr111")⟩, none, none, none⟩
      "SoLAddr111" = .ok ⟨true, some "SoLAddr111"⟩
    ∧ (⟨true, some "SoLAddr111"⟩ : SolProv).publicKey = some "SoLAddr111" :=
  ⟨by rfl, C10_connectSolanaWallet_returns_expected
    ⟨none, some ⟨⟨false, none⟩, .ok (some "SoLAddr111")⟩, none, none, none⟩
    "SoLAddr111" ⟨true, some "SoLAddr111"⟩ (by rfl)⟩

/-! ## C7: allowance sufficiency is exact integer comparison -/

theorem decDigitVal?_digitChar (d : Nat) (hd : d < 10) :
    decDigitVal? (Char.ofNat (48 + d)) = some d := by
  have h : ∀ x < 10, decDigitVal? (Char.ofNat (48 + x)) = some x := by decide
  exact h d hd

theorem digitChar_toNat (d : Nat) (hd : d < 10) :
    (Char.ofNat (48 + d)).toNat = 48 + d := by
  have h : ∀ x < 10, (Char.ofNat (48 + x)).toNat = 48 + x := by decide
  exact h d hd

theorem decFoldl_rev_digits (ds : List Nat) (h : ∀ d ∈ ds, d < 10) (acc : Nat) :
    List.foldl (fun a c => a * 10 + ((decDigitVal? c).getD 0)) acc
      (ds.reverse.map fun d => Char.ofNat (48 + d))
      = acc * 10 ^ ds.length + Nat.ofDigits 10 ds := by
  induction ds generalizing acc with
  | nil => simp
  | cons d tl ih =>
    have hd : d < 10 := h d (by simp)
    have htl : ∀ x ∈ tl, x < 10 := fun x hx => h x (by simp [hx])
    rw [List.reverse_cons, List.map_append, List.foldl_append, ih htl]
    simp only [List.map_cons, List.map_nil, List.foldl_cons, List.foldl_nil,
      decDigitVal?_digitChar d hd, Option.getD_some, List.length_cons,
      Nat.ofDigits_cons]
    rw [pow_succ]
    ring

/-- Round trip at the heart of `checkERC20Allowance`: re-parsing the
decimal string produced by `BigInt.prototype.toString()` recovers the
same bigint. -/
theorem bigIntJS_natToDec (n : Nat) : bigIntJS (natToDec n) = .ok n := by
  by_cases hn : n = 0
  · subst hn; rfl
  · have hchars : ∀ c ∈ (natToDec n).data, ∃ d, d < 10 ∧ c = Char.ofNat (48 + d) := by
      intro c hc
      rw [natToDec, if_neg hn] at hc
      simp only [List.mem_map, List.mem_reverse] at hc
      obtain ⟨d, hd, rfl⟩ := hc
      exact ⟨d, Nat.digits_lt_base (by norm_num) hd, rfl⟩
    have hnotx : ∀ bad : Char, bad.toNat = 120 ∨ bad.toNat = 88 →
        bad ∉ (natToDec n).data := by
      intro bad hbad hmem
      obtain ⟨d, hd, rfl⟩ := hchars bad hmem
      rw [digitChar_toNat d hd] at hbad
      omega
    have hno0x : ¬ ((natToDec n).data.take 2 = ['0', 'x']
        ∨ (natToDec n).data.take 2 = ['0', 'X']) := by
      rintro (habs | habs)
      · exact hnotx 'x' (by left; rfl)
          (List.take_subset 2 _ (by rw [habs]; simp))
      · exact hnotx 'X' (by right; rfl)
          (List.take_subset 2 _ (by rw [habs]; simp))
    have hall : (natToDec n).data.all (fun c => (decDigitVal? c).isSome) = true := by
      rw [List.all_eq_true]
      intro c hc
      obtain ⟨d, hd, rfl⟩ := hchars c hc
      rw [decDigitVal?_digitChar d hd]
      rfl
    rw [bigIntJS, if_neg hno0x, if_pos hall]
    have hds : ∀ d ∈ Nat.digits 10 n, d < 10 :=
      fun d hd => Nat.digits_lt_base (by norm_num) hd
    rw [natToDec, if_neg hn]
    show Except.ok (decFold _) = _
    rw [decFold, decFoldl_rev_digits (Nat.digits 10 n) hds 0]
    rw [Nat.zero_mul, Nat.zero_add, Nat.ofDigits_digits]

/-- C7: the sufficiency checks are boolean conjunctions over exact integer
arithmetic.  (1) The Permit2 variant is true iff `amount ≥ required` AND
`expiration ≥ now + buffer` (so false whenever `expiration < now + buffer`
even with sufficient amount; call sites use `buffer = 1800`).  (2) The
ERC-20 variant re-parses the decimal allowance string with `BigInt` and
reports `isSufficient = (required ≤ allowance)` by arbitrary-precision
comparison. -/
theorem C7_sufficiency_exact_integer_comparison :
    (∀ (alw : Permit2Allowance) (req buf now : Nat),
        isAllowanceSufficient alw req buf now = true
          ↔ (req ≤ alw.amount ∧ now + buf ≤ alw.expiration))
    ∧ (∀ (provider : EIP1193Provider) (ta oa sa resultStr : String) (a req : Nat),
        provider (.ethCall ta (ALLOWANCE_SELECTOR
          ++ padStart (toLowerJs (jsSliceFrom oa 2)) 64 '0'
          ++ padStart (toLowerJs (jsSliceFrom sa 2)) 64 '0')) = .ok (.str resultStr) →
        bigIntJS resultStr = .ok a →
        checkERC20Allowance ⟨provider, ta, oa, sa⟩ (natToDec req)
          = .ok ⟨natToDec a, decide (req ≤ a)⟩) := by
  constructor
  · intro alw req buf now
    unfold isAllowanceSufficient
    split_ifs with h1 h2
    · simp; omega
    · simp; omega
    · simp; omega
  · intro provider ta oa sa resultStr a req hcall ha
    unfold checkERC20Allowance getERC20Allowance
    simp only [hcall, exceptBind_ok]
    show (do
      let allowance ← (do
        let n ← bigIntJS resultStr
        pure (natToDec n) : Except String String)
      let a2 ← bigIntJS allowance
      let r ← bigIntJS (natToDec req)
      pure (⟨allowance, decide (r ≤ a2)⟩ : ERC20AllowanceInfo)) = _
    rw [ha]
    show (do
      let a2 ← bigIntJS (natToDec a)
      let r ← bigIntJS (natToDec req)
      pure (⟨natToDec a, decide (r ≤ a2)⟩ : ERC20AllowanceInfo)) = _
    rw [bigIntJS_natToDec a, bigIntJS_natToDec req]
    rfl

/-- C7 witness: the spec's own numbers — allowance 5000000 versus required
1000000 is sufficient, with the Permit2 conjunction checked at
`buffer = 1800`. -/
theorem C7_witness :
    checkERC20Allowance
      ⟨fun c =>
        match c with
        | .ethCall _ d =>
            if d = ALLOWANCE_SELECTOR
                ++ padStart (toLowerJs (jsSliceFrom "0xOwner" 2)) 64 '0'
                ++ padStart (toLowerJs (jsSliceFrom "0xSpender" 2)) 64 '0' then
              .ok (.str "0x4c4b40")
            else .error "execution reverted"
        | _ => .error "unsupported method", "0xTok", "0xOwner", "0xSpender"⟩
      (natToDec 1000000)
      = .ok ⟨natToDec 5000000, decide ((1000000 : Nat) ≤ 5000000)⟩
    ∧ (isAllowanceSufficient ⟨5000000, 1000, 0⟩ 1000000 1800 1700000000 = true
        ↔ ((1000000 : Nat) ≤ 5000000 ∧ (1700000000 : Nat) + 1800 ≤ 1000)) :=
  ⟨(C7_sufficiency_exact_integer_comparison.2) _ "0xTok" "0xOwner" "0xSpender"
      "0x4c4b40" 5000000 1000000 (by rfl) (by rfl),
    (C7_sufficiency_exact_integer_comparison.1) ⟨5000000, 1000, 0⟩ 1000000 1800
      1700000000⟩

/-! ## C8: base64 round trip -/

theorem sixBit_roundtrip : ∀ n < 64, sixBitVal? (sixBitChar n) = some n := by
  decide

theorem sixBitChar_ne_pad : ∀ n < 64, sixBitChar n ≠ '=' := by
  decide

theorem atob_btoa :
    ∀ l : List Nat, (∀ x ∈ l, x < 256) → atobBytes (btoaBytes l) = some l
  | [], _ => rfl
  | [a], h => by
      have ha : a < 256 := h a (by simp)
      have h1 : sixBitVal? (sixBitChar (a / 4)) = some (a / 4) :=
        sixBit_roundtrip _ (by omega)
      have h2 : sixBitVal? (sixBitChar (a % 4 * 16)) = some (a % 4 * 16) :=
        sixBit_roundtrip _ (by omega)
      simp [btoaBytes, atobBytes, h1, h2, Option.some.injEq, List.cons.injEq]
      omega
  | [a, b], h => by
      have ha : a < 256 := h a (by simp)
      have hb : b < 256 := h b (by simp)
      have h1 : sixBitVal? (sixBitChar (a / 4)) = some (a / 4) :=
        sixBit_roundtrip _ (by omega)
      have h2 : sixBitVal? (sixBitChar (a % 4 * 16 + b / 16))
          = some (a % 4 * 16 + b / 16) := sixBit_roundtrip _ (by omega)
      have h3 : sixBitVal? (sixBitChar (b % 16 * 4)) = some (b % 16 * 4) :=
        sixBit_roundtrip _ (by omega)
      have hne : sixBitChar (b % 16 * 4) ≠ '=' := sixBitChar_ne_pad _ (by omega)
      simp [btoaBytes, atobBytes, hne, h1, h2, h3, Option.some.injEq,
        List.cons.injEq]
      omega
  | a :: b :: c :: rest, h => by
      have ha : a < 256 := h a (by simp)
      have hb : b < 256 := h b (by simp)
      have hc : c < 256 := h c (by simp)
      have ih := atob_btoa rest (fun x hx => h x (by simp [hx]))
      have h1 : sixBitVal? (sixBitChar (a / 4)) = some (a / 4) :=
        sixBit_roundtrip _ (by omega)
      have h2 : sixBitVal? (sixBitChar (a % 4 * 16 + b / 16))
          = some (a % 4 * 16 + b / 16) := sixBit_roundtrip _ (by omega)
      have h3 : sixBitVal? (sixBitChar (b % 16 * 4 + c / 64))
          = some (b % 16 * 4 + c / 64) := sixBit_roundtrip _ (by omega)
      have h4 : sixBitVal? (sixBitChar (c % 64)) = some (c % 64) :=
        sixBit_roundtrip _ (by omega)
      have hne1 : sixBitChar (b % 16 * 4 + c / 64) ≠ '=' :=
        sixBitChar_ne_pad _ (by omega)
      have hne2 : sixBitChar (c % 64) ≠ '=' := sixBitChar_ne_pad _ (by omega)
      simp [btoaBytes, atobBytes, hne1, hne2, h1, h2, h3, h4, ih,
        Option.some.injEq, List.cons.injEq]
      refine ⟨?_, ?_, ?_⟩ <;> omega

/-- C8: decoding the base64 string produced by encoding any byte sequence
yields exactly that byte sequence
(`base64ToUint8Array(uint8ArrayToBase64(b)) = b`). -/
theorem C8_base64_round_trip (bytes : List Nat) (h : ∀ x ∈ bytes, x < 256) :
    base64ToUint8Array (uint8ArrayToBase64 bytes) = .ok bytes := by
  unfold base64ToUint8Array uint8ArrayToBase64
  rw [show (String.mk (btoaBytes bytes)).data = btoaBytes bytes from rfl,
    atob_btoa bytes h]

/-- C8 witness: `"Hello"` (bytes `[72,101,108,108,111]`, encoding
`"SGVsbG8="`) round-trips. -/
theorem C8_witness :
    base64ToUint8Array (uint8ArrayToBase64 [72, 101, 108, 108, 111])
      = .ok [72, 101, 108, 108, 111] :=
  C8_base64_round_trip [72, 101, 108, 108, 111] (by decide)

end CryptoUtils
